import Mathlib

/-!
Verification development for `.github/scripts/auto_release.py`, a CI helper
that computes a semantic-version bump from pull-request labels, creates and
pushes a git tag, builds a categorized changelog and prepends it to
CHANGELOG.md, and optionally creates a GitHub (pre-)release.

The script is shallowly embedded: pure string manipulation is translated to
executable Lean functions over `String`/`List Char`; every shell command the
script runs through `subprocess.check_output` is modelled by consulting a
"world" function `String → Except Unit String` mapping the exact command
string to its outcome (`.error` = non-zero exit of the command, i.e. a
raised `CalledProcessError`; `.ok out` = its stdout).  Python exceptions
that escape a function are modelled with `Except`/`Option` results.
-/

namespace AutoRelease

/-! ## Python string primitives

The script relies on `str.split`, `str.strip`, `str.lower`, `str.replace`,
substring tests with `in`, and `str.splitlines`.  These are modelled over
`List Char` with structural recursion so that every concrete run reduces
inside the kernel.  All inputs involved are ASCII, and the only line break
produced by the modelled commands is a plain newline. -/

/-- Python `s.split(sep)` for a single-character separator (the script only
splits on `","`, `"|"`, `"."` and `"\n"`). -/
def splitOnChar (sep : Char) : List Char → List (List Char)
  | [] => [[]]
  | c :: rest =>
    if c = sep then [] :: splitOnChar sep rest
    else
      match splitOnChar sep rest with
      | [] => [[c]]
      | a :: as => (c :: a) :: as

/-- String-level wrapper for `splitOnChar`. -/
def pySplit (s : String) (sep : Char) : List String :=
  (splitOnChar sep s.data).map String.mk

/-- Python `s.strip()` (ASCII whitespace). -/
def pyStrip (s : String) : String :=
  String.mk (((s.data.dropWhile Char.isWhitespace).reverse.dropWhile Char.isWhitespace).reverse)

/-- Python `s.lower()` (ASCII case folding). -/
def pyLower (s : String) : String :=
  String.mk (s.data.map Char.toLower)

/-- Helper for substring search: does `needle` occur in `hay` (contiguously)? -/
def containsSubAux (needle : List Char) : List Char → Bool
  | [] => needle.isEmpty
  | c :: rest => needle.isPrefixOf (c :: rest) || containsSubAux needle rest

/-- Python `needle in hay` substring containment. -/
def pyContains (hay needle : String) : Bool :=
  containsSubAux needle.data hay.data

/-- Python `x in xs` for a list of strings. -/
def pyIn (x : String) : List String → Bool
  | [] => false
  | y :: ys => if y = x then true else pyIn x ys

/-- Fuel-driven core of Python `s.replace(pat, rep)` (replace every
non-overlapping occurrence, scanning left to right).  One fuel unit is spent
per step; each step consumes at least one character, so fuel
`s.length + 1` is always enough. -/
def pyReplaceFuel (pat rep : List Char) : Nat → List Char → List Char
  | _, [] => []
  | 0, l => l
  | fuel + 1, c :: rest =>
    if pat.isPrefixOf (c :: rest) then
      rep ++ pyReplaceFuel pat rep fuel (rest.drop (pat.length - 1))
    else
      c :: pyReplaceFuel pat rep fuel rest

/-- Python `s.replace(pat, rep)`.  The script only ever calls it with the
non-empty patterns `"v"` and `"dev-"`, so the empty-pattern case (which
Python treats as inserting `rep` at every position) is left as the identity. -/
def pyReplace (s pat rep : String) : String :=
  match pat.data with
  | [] => s
  | _ :: _ => String.mk (pyReplaceFuel pat.data rep.data (s.data.length + 1) s.data)

/-- Python `s.splitlines()` for strings whose only line break is `"\n"`
(the modelled `git log` output). -/
def splitlinesStr (s : String) : List String :=
  if s = "" then []
  else
    let parts := (splitOnChar (Char.ofNat 10) s.data).map String.mk
    if parts.getLast? = some "" then parts.dropLast else parts

/-- Python `"\n".join(l)`. -/
def joinWith (sep : String) : List String → String
  | [] => ""
  | [x] => x
  | x :: y :: xs => x ++ sep ++ joinWith sep (y :: xs)

/-! ## Semantic versions

The script depends on the external `semver` package (`semver.VersionInfo`),
which is not part of this repository. -/

/-- Modelled from the spec: the data model of the external `semver` library,
"Semantic version: triple (major, minor, patch), parsed from a tag string,
totally ordered". -/
structure Version where
  major : Nat
  minor : Nat
  patch : Nat
deriving DecidableEq

/-- Decimal digit characters. -/
def digitChar : Nat → Char
  | 0 => '0' | 1 => '1' | 2 => '2' | 3 => '3' | 4 => '4'
  | 5 => '5' | 6 => '6' | 7 => '7' | 8 => '8' | 9 => '9'
  | _ => '0'

/-- Fuel-driven decimal rendering of a positive natural number. -/
def natToDigitsAux : Nat → Nat → List Char
  | 0, _ => []
  | fuel + 1, n =>
    if n = 0 then []
    else natToDigitsAux fuel (n / 10) ++ [digitChar (n % 10)]

/-- Decimal rendering of a natural number (Python `str(int)`). -/
def natToStr (n : Nat) : String :=
  if n = 0 then "0" else String.mk (natToDigitsAux (n + 1) n)

/-- Modelled from the spec: `str(VersionInfo)` of the external `semver`
library, rendering the triple as `major.minor.patch`. -/
def Version.toStr (v : Version) : String :=
  natToStr v.major ++ "." ++ natToStr v.minor ++ "." ++ natToStr v.patch

/-- Strict semantic-version order (lexicographic on the triple). -/
def Version.lt (a b : Version) : Prop :=
  a.major < b.major ∨
    (a.major = b.major ∧
      (a.minor < b.minor ∨ (a.minor = b.minor ∧ a.patch < b.patch)))

instance (a b : Version) : Decidable (a.lt b) := by
  unfold Version.lt; infer_instance

/-- Parse one numeric semver field: decimal digits, no leading zero. -/
def parseNumericId (l : List Char) : Option Nat :=
  if l.isEmpty then none
  else if ¬ l.all Char.isDigit then none
  else
    match l with
    | '0' :: _ :: _ => none
    | _ => some (l.foldl (fun acc c => acc * 10 + (c.toNat - 48)) 0)

/-- Modelled from the spec: the external `semver` library's
`VersionInfo.parse` restricted to the spec's data model (a plain
`major.minor.patch` triple of numeric fields, each without leading zeroes);
`none` models the `ValueError` the library raises on invalid syntax. -/
def semverParse (s : String) : Option Version :=
  match splitOnChar '.' s.data with
  | [a, b, c] =>
    match parseNumericId a, parseNumericId b, parseNumericId c with
    | some ma, some mi, some pa => some ⟨ma, mi, pa⟩
    | _, _, _ => none
  | _ => none

/-- Modelled from the spec: `semver.VersionInfo.bump_major`, which
"increments exactly one field per rule, zeroing lower-order fields". -/
def Version.bump_major (v : Version) : Version := ⟨v.major + 1, 0, 0⟩

/-- Modelled from the spec: `semver.VersionInfo.bump_minor`. -/
def Version.bump_minor (v : Version) : Version := ⟨v.major, v.minor + 1, 0⟩

/-- Modelled from the spec: `semver.VersionInfo.bump_patch`. -/
def Version.bump_patch (v : Version) : Version := ⟨v.major, v.minor, v.patch + 1⟩

/-! ## The script's pure functions -/

/-- `determine_bump(labels)`: lowercase every label, then first-match over
`major`, `enhancement`/`feature`, `bug`/`fix`, defaulting to `patch`. -/
def determine_bump (labels : List String) : String :=
  let ls := labels.map pyLower
  if pyIn "major" ls then "major"
  else if pyIn "enhancement" ls || pyIn "feature" ls then "minor"
  else if pyIn "bug" ls || pyIn "fix" ls then "patch"
  else "patch"

/-- `bump_version(current, bump)`: parse `current` (a parse failure — the
`none` result — is the uncaught `ValueError`), then bump the requested
field; any other bump kind returns the parsed version unchanged. -/
def bump_version (current bump : String) : Option Version :=
  match semverParse current with
  | none => none
  | some v =>
    if bump = "major" then some v.bump_major
    else if bump = "minor" then some v.bump_minor
    else if bump = "patch" then some v.bump_patch
    else some v

/-! ## Changelog construction -/

/-- The ordered-dict `sections` of `categorize_commits`, with its three keys
`"🚀 Enhancements"`, `"🐛 Bug Fixes"`, `"🧰 Other"` in insertion order. -/
structure Sections where
  enhancements : List String
  bugFixes : List String
  other : List String
deriving DecidableEq

/-- Case-insensitive literal match: drop `pat` (compared char by char after
lowercasing) from the front of `l`, returning the remainder. -/
def dropCI : List Char → List Char → Option (List Char)
  | [], l => some l
  | _ :: _, [] => none
  | p :: ps, c :: cs => if p.toLower = c.toLower then dropCI ps cs else none

/-- The lazy `.*? (.+)` tail of the PR-merge regular expression: find the
first space that still leaves at least one character after it; return the
text before the space (group of `.*?`) and the text after it (group 2). -/
def splitAtTitleSpace : List Char → Option (List Char × List Char)
  | [] => none
  | c :: rest =>
    if c = ' ' ∧ rest ≠ [] then some ([], rest)
    else
      match splitAtTitleSpace rest with
      | some (a, b) => some (c :: a, b)
      | none => none

/-- `re.match` of the anchored, case-insensitive pattern
`Merge pull request #(\d+) from .*? (.+)` against a single-line message:
returns `(PR number, PR title)` — groups 1 and 2 — on success.  The greedy
`(\d+)` must be followed by the literal `" from "`, and the lazy `.*?` ends
at the first space that leaves a non-empty remainder for `(.+)`. -/
def matchPRMerge (msg : String) : Option (String × String) :=
  match dropCI "merge pull request #".data msg.data with
  | none => none
  | some rest =>
    let digits := rest.takeWhile Char.isDigit
    if digits.isEmpty then none
    else
      match dropCI " from ".data (rest.dropWhile Char.isDigit) with
      | none => none
      | some rest2 =>
        match splitAtTitleSpace rest2 with
        | none => none
        | some (_, title) => some (String.mk digits, String.mk title)

/-- `parts[0].strip()` of `c.split("|")`. -/
def commitMsg (c : String) : String :=
  pyStrip ((pySplit c '|').headD "")

/-- `parts[1].strip() if len(parts) > 1 else ""`. -/
def commitHash (c : String) : String :=
  match pySplit c '|' with
  | _ :: h :: _ => pyStrip h
  | _ => ""

/-- The rendered changelog line for one commit record: the PR-merge rewrite
`"<pr_title> (#<pr_number>)"` when the regex matches, else
`"<msg> (#<commit_hash>)"`. -/
def commitLine (c : String) : String :=
  match matchPRMerge (commitMsg c) with
  | some (num, title) => title ++ " (#" ++ num ++ ")"
  | none => commitMsg c ++ " (#" ++ commitHash c ++ ")"

/-- Is the message classified as an enhancement
(`"feature" in msg_lower or "enhanc" in msg_lower`)? -/
def isEnhMsg (msg : String) : Bool :=
  pyContains (pyLower msg) "feature" || pyContains (pyLower msg) "enhanc"

/-- Is the message classified as a bug fix
(`"bug" in msg_lower or "fix" in msg_lower`)? -/
def isBugMsg (msg : String) : Bool :=
  pyContains (pyLower msg) "bug" || pyContains (pyLower msg) "fix"

/-- The body of the `for c in commits` loop of `categorize_commits`:
append the rendered line to the first matching section (enhancements, then
bug fixes, then other). -/
def categorizeStep (s : Sections) (c : String) : Sections :=
  if isEnhMsg (commitMsg c) then
    { s with enhancements := s.enhancements ++ [commitLine c] }
  else if isBugMsg (commitMsg c) then
    { s with bugFixes := s.bugFixes ++ [commitLine c] }
  else
    { s with other := s.other ++ [commitLine c] }

/-- `categorize_commits(commits)`: split each record at `"|"`, render its
line, and classify it into exactly one of the three sections. -/
def categorize_commits (commits : List String) : Sections :=
  commits.foldl categorizeStep ⟨[], [], []⟩

/-- `build_changelog(sections, current_tag, next_tag)`: a header
`f"{next_tag}\nChanges\n"` followed by each non-empty section's key and
items, in the dict's insertion order, joined with newlines.  The
`current_tag` argument is unused, as in the source. -/
def build_changelog (sections : Sections) (current_tag : Option String)
    (next_tag : String) : String :=
  joinWith "\n"
    ([next_tag ++ "\nChanges\n"]
      ++ (if sections.enhancements = [] then []
          else "🚀 Enhancements" :: sections.enhancements)
      ++ (if sections.bugFixes = [] then []
          else "🐛 Bug Fixes" :: sections.bugFixes)
      ++ (if sections.other = [] then []
          else "🧰 Other" :: sections.other))

/-- The new CHANGELOG.md content computed by `update_changelog_repo`:
`f"{changelog}\n\n{previous_content}"`, where the previous content is the
file's text when it exists and `""` otherwise. -/
def update_changelog_content (changelog : String) (previous : Option String) :
    String :=
  changelog ++ "\n\n" ++ previous.getD ""

/-! ## Shell commands and the external world -/

/-- Errors that can escape the script: a failed external command
(`subprocess.CalledProcessError`) or a semver parse failure (`ValueError`).
Either aborts the process with a non-zero exit. -/
inductive Err where
  | cmdFailed (cmd : String)
  | parseError (s : String)
deriving DecidableEq

/-- The external world: each command string the script passes to `run` is
mapped to its outcome (`.error ()` models a non-zero exit). -/
def World : Type := String → Except Unit String

/-- `run(cmd)`: `subprocess.check_output(cmd, shell=True, text=True).strip()`;
a non-zero exit raises `CalledProcessError`. -/
def runE (w : World) (cmd : String) : Except Err String :=
  match w cmd with
  | Except.error _ => Except.error (Err.cmdFailed cmd)
  | Except.ok s => Except.ok (pyStrip s)

/-- The tag-listing command of `get_latest_tag`. -/
def tagListCmd (pattern : String) : String :=
  "git tag --list \x27" ++ pattern ++ "\x27 | sort -V | tail -n 1"

/-- The merge-log command of `get_commits_since_tag`. -/
def logCmd (tag : String) : String :=
  "git log " ++ tag ++ "..HEAD --merges --pretty=format:\x27%s|%h\x27"

/-- `git config user.name` command of `update_changelog_repo`. -/
def gitConfigNameCmd : String :=
  "git config user.name \x27github-actions[bot]\x27"

/-- `git config user.email` command of `update_changelog_repo`. -/
def gitConfigEmailCmd : String :=
  "git config user.email \x27github-actions[bot]@users.noreply.github.com\x27"

/-- `git add` command of `update_changelog_repo`. -/
def gitAddCmd : String := "git add CHANGELOG.md"

/-- The changelog commit command; its shell-level `|| echo` fallback makes a
"nothing to commit" outcome exit zero, so it reaches the script as success. -/
def commitCmd : String :=
  "git commit -m \"chore: update changelog [skip ci]\" || echo \"No changes to commit\""

/-- The changelog push command of `update_changelog_repo`. -/
def pushHeadCmd : String := "git push origin HEAD"

/-- Tag-creation command in `main`. -/
def tagCreateCmd (tag : String) : String := "git tag " ++ tag

/-- Tag-push command in `main`. -/
def tagPushCmd (tag : String) : String := "git push origin " ++ tag

/-- Release-creation command in `main` (`--prerelease` on develop). -/
def releaseCreateCmd (tag : String) (prerelease : Bool) : String :=
  "gh release create " ++ tag
    ++ (if prerelease then " --prerelease" else "")
    ++ " --notes-file RELEASE_NOTES.md"

/-- The five commands `update_changelog_repo` runs, in order. -/
def updateChangelogCmds : List String :=
  [gitConfigNameCmd, gitConfigEmailCmd, gitAddCmd, commitCmd, pushHeadCmd]

/-! ## The script's effectful functions -/

/-- `get_latest_tag(pattern)`: run the tag-listing pipeline; a bare
`except` turns any failure into `None`, and an empty (falsy) output is
also `None`. -/
def get_latest_tag (w : World) (pattern : String) : Option String :=
  match runE w (tagListCmd pattern) with
  | Except.error _ => none
  | Except.ok latest => if latest = "" then none else some latest

/-- `get_commits_since_tag(tag)`: split the merge log into lines;
a `CalledProcessError` is caught and yields the empty list. -/
def get_commits_since_tag (w : World) (tag : String) : List String :=
  match runE w (logCmd tag) with
  | Except.error _ => []
  | Except.ok out => splitlinesStr out

/-- `update_changelog_repo(changelog)`: write the prepended content (the
file write precedes the git commands), then run the five git commands; any
command failure propagates.  Returns the new CHANGELOG.md content. -/
def update_changelog_repo (w : World) (changelog : String)
    (chlog : Option String) : Except Err String := do
  let new_content := update_changelog_content changelog chlog
  let _ ← runE w gitConfigNameCmd
  let _ ← runE w gitConfigEmailCmd
  let _ ← runE w gitAddCmd
  let _ ← runE w commitCmd
  let _ ← runE w pushHeadCmd
  return new_content

/-- Observable outcome of a successful run (exit status 0). -/
structure Effects where
  /-- Every shell command issued, in order. -/
  commands : List String
  /-- The `current_version` string the script computed, when it reached
  that point. -/
  currentVersion : Option String
  /-- The tag passed to `git tag`. -/
  tagCreated : Option String
  /-- The content written to CHANGELOG.md. -/
  changelogWritten : Option String
  /-- The content written to RELEASE_NOTES.md (publish runs only). -/
  releaseNotes : Option String
  /-- Whether the unsupported-branch warning was printed. -/
  warningPrinted : Bool
deriving DecidableEq

/-- The per-branch release flow shared verbatim by the `develop` and `main`
blocks of `main()`: locate the latest tag with `pattern`, strip `tagHead`
from it (default `"0.1.0"`), bump, retag with `tagHead`, build and persist
the changelog, create and push the tag, and optionally publish. -/
def releaseFlow (w : World) (bump : String) (publish : Bool)
    (pattern tagHead : String) (prerelease : Bool) (chlog : Option String) :
    Except Err Effects :=
  let latest := get_latest_tag w pattern
  let current_version :=
    match latest with
    | some l => pyReplace l tagHead ""
    | none => "0.1.0"
  match bump_version current_version bump with
  | none => Except.error (Err.parseError current_version)
  | some next_version =>
    let new_tag := tagHead ++ next_version.toStr
    let logArg := match latest with | some l => l | none => "HEAD~10"
    let commits := get_commits_since_tag w logArg
    let sections := categorize_commits commits
    let changelog := build_changelog sections latest new_tag
    match update_changelog_repo w changelog chlog with
    | Except.error e => Except.error e
    | Except.ok newChlog =>
      match runE w (tagCreateCmd new_tag) with
      | Except.error e => Except.error e
      | Except.ok _ =>
        match runE w (tagPushCmd new_tag) with
        | Except.error e => Except.error e
        | Except.ok _ =>
          let baseCmds :=
            [tagListCmd pattern, logCmd logArg] ++ updateChangelogCmds
              ++ [tagCreateCmd new_tag, tagPushCmd new_tag]
          if publish then
            match runE w (releaseCreateCmd new_tag prerelease) with
            | Except.error e => Except.error e
            | Except.ok _ =>
              Except.ok
                { commands := baseCmds ++ [releaseCreateCmd new_tag prerelease]
                  currentVersion := some current_version
                  tagCreated := some new_tag
                  changelogWritten := some newChlog
                  releaseNotes := some changelog
                  warningPrinted := false }
          else
            Except.ok
              { commands := baseCmds
                currentVersion := some current_version
                tagCreated := some new_tag
                changelogWritten := some newChlog
                releaseNotes := none
                warningPrinted := false }

/-- `main()`: read labels and branch, resolve the bump and the publish
flag, then run the develop flow (`dev-*` tags, pre-release), the main flow
(`v*` tags), or — for any other branch — print the warning and return
(exit status 0) with no further side effect. -/
def mainRun (w : World) (pr_labels branch : String) (chlog : Option String) :
    Except Err Effects :=
  let labels := ((pySplit pr_labels ',').map pyStrip).filter (fun l => l ≠ "")
  let bump := determine_bump labels
  let publish := pyIn "publish" (labels.map pyLower)
  if branch = "develop" then
    releaseFlow w bump publish "dev-*" "dev-" true chlog
  else if branch = "main" then
    releaseFlow w bump publish "v*" "v" false chlog
  else
    Except.ok
      { commands := []
        currentVersion := none
        tagCreated := none
        changelogWritten := none
        releaseNotes := none
        warningPrinted := true }

/-! ## Observation helpers and scenario worlds -/

/-- The tag a finished run created, if any. -/
def runTag : Except Err Effects → Option String
  | Except.ok e => e.tagCreated
  | Except.error _ => none

/-- The `current_version` a finished run computed, if any. -/
def runCurrent : Except Err Effects → Option String
  | Except.ok e => e.currentVersion
  | Except.error _ => none

/-- Did the run finish with exit status 0? -/
def runOk : Except Err Effects → Bool
  | Except.ok _ => true
  | Except.error _ => false

/-- Did the run abort with a failure of command `cmd`? -/
def runFailedOn (r : Except Err Effects) (cmd : String) : Bool :=
  match r with
  | Except.error (Err.cmdFailed c) => c = cmd
  | _ => false

/-- Did the run abort with a semver parse failure on `s`? -/
def runParseFailed (r : Except Err Effects) (s : String) : Bool :=
  match r with
  | Except.error (Err.parseError t) => t = s
  | _ => false

/-- A world where every command succeeds with empty output: in particular
there are no existing tags and no merge commits. -/
def okWorld : World := fun _ => Except.ok ""

/-- A world whose only existing tag is `dev-1.4.2`. -/
def devWorld : World := fun cmd =>
  if cmd = tagListCmd "dev-*" then Except.ok "dev-1.4.2" else Except.ok ""

/-- A world where every command fails. -/
def failWorld : World := fun _ => Except.error ()

/-- A world where exactly the command `bad` fails. -/
def failOn (bad : String) : World := fun cmd =>
  if cmd = bad then Except.error () else Except.ok ""

/-- A world with the tag `dev-1.4.2` whose merge-log command fails. -/
def logFailWorld : World := fun cmd =>
  if cmd = tagListCmd "dev-*" then Except.ok "dev-1.4.2"
  else if cmd = logCmd "dev-1.4.2" then Except.error ()
  else Except.ok ""

/-- A world where the tag listing for `v*` returns a tag whose version part
is not valid semver syntax. -/
def badTagWorld : World := fun cmd =>
  if cmd = tagListCmd "v*" then Except.ok "vbogus" else Except.ok ""

/-- A world where the changelog commit command reports that there was
nothing to commit (the shell `|| echo` fallback exited zero). -/
def nothingToCommitWorld : World := fun cmd =>
  if cmd = commitCmd then Except.ok "No changes to commit" else Except.ok ""

/-! ## Basic lemmas -/

theorem pyIn_iff (x : String) (l : List String) : pyIn x l = true ↔ x ∈ l := by
  induction l with
  | nil => simp [pyIn]
  | cons y ys ih =>
    by_cases h : y = x
    · simp [pyIn, h]
    · simp [pyIn, h, ih]
      exact fun he => absurd he.symm h

theorem pyIn_map_lower_iff (s : String) (labels : List String) :
    pyIn s (labels.map pyLower) = true ↔ ∃ l ∈ labels, pyLower l = s := by
  rw [pyIn_iff]
  simp [List.mem_map]

/-! ## C1 -/

/-- C1. End-to-end tag computation: with no existing tags, branch `main`
and labels `["enhancement"]`, the script takes the current version to be
`0.1.0` and creates the tag `v0.2.0`; with latest tag `dev-1.4.2`, branch
`develop` and labels `["bug"]`, it creates the tag `dev-1.4.3`. -/
theorem C1_end_to_end :
    (runCurrent (mainRun okWorld "enhancement" "main" none) = some "0.1.0" ∧
      runTag (mainRun okWorld "enhancement" "main" none) = some "v0.2.0") ∧
    (runCurrent (mainRun devWorld "bug" "develop" none) = some "1.4.2" ∧
      runTag (mainRun devWorld "bug" "develop" none) = some "dev-1.4.3") := by
  decide

/-! ## C2 -/

/-- C2. `determine_bump` is total (always one of `major`/`minor`/`patch`)
and applies the first-match, case-insensitive rule: a `major` label wins
over everything, else `enhancement`/`feature` gives `minor`, else
`bug`/`fix` gives `patch`, else `patch` by default. -/
theorem C2_determine_bump_rule (labels : List String) :
    (determine_bump labels = "major" ∨ determine_bump labels = "minor" ∨
      determine_bump labels = "patch") ∧
    ((∃ l ∈ labels, pyLower l = "major") → determine_bump labels = "major") ∧
    (¬ (∃ l ∈ labels, pyLower l = "major") →
      (∃ l ∈ labels, pyLower l = "enhancement" ∨ pyLower l = "feature") →
      determine_bump labels = "minor") ∧
    (¬ (∃ l ∈ labels, pyLower l = "major") →
      ¬ (∃ l ∈ labels, pyLower l = "enhancement" ∨ pyLower l = "feature") →
      (∃ l ∈ labels, pyLower l = "bug" ∨ pyLower l = "fix") →
      determine_bump labels = "patch") ∧
    (¬ (∃ l ∈ labels, pyLower l = "major") →
      ¬ (∃ l ∈ labels, pyLower l = "enhancement" ∨ pyLower l = "feature") →
      ¬ (∃ l ∈ labels, pyLower l = "bug" ∨ pyLower l = "fix") →
      determine_bump labels = "patch") := by
  have hmaj : pyIn "major" (labels.map pyLower) = true ↔
      ∃ l ∈ labels, pyLower l = "major" := pyIn_map_lower_iff _ _
  have henh : pyIn "enhancement" (labels.map pyLower) = true ↔
      ∃ l ∈ labels, pyLower l = "enhancement" := pyIn_map_lower_iff _ _
  have hfea : pyIn "feature" (labels.map pyLower) = true ↔
      ∃ l ∈ labels, pyLower l = "feature" := pyIn_map_lower_iff _ _
  have hbug : pyIn "bug" (labels.map pyLower) = true ↔
      ∃ l ∈ labels, pyLower l = "bug" := pyIn_map_lower_iff _ _
  have hfix : pyIn "fix" (labels.map pyLower) = true ↔
      ∃ l ∈ labels, pyLower l = "fix" := pyIn_map_lower_iff _ _
  refine ⟨?_, ?_, ?_, ?_, ?_⟩
  · unfold determine_bump
    by_cases h1 : pyIn "major" (labels.map pyLower) <;>
      by_cases h2 : pyIn "enhancement" (labels.map pyLower)
        || pyIn "feature" (labels.map pyLower) <;>
      by_cases h3 : pyIn "bug" (labels.map pyLower)
        || pyIn "fix" (labels.map pyLower) <;>
      simp [h1, h2, h3]
  · intro h
    unfold determine_bump
    simp [hmaj.mpr h]
  · intro hm he
    have h1 : pyIn "major" (labels.map pyLower) = false := by
      rw [← Bool.not_eq_true]; exact fun hc => hm (hmaj.mp hc)
    have h2 : (pyIn "enhancement" (labels.map pyLower)
        || pyIn "feature" (labels.map pyLower)) = true := by
      rcases he with ⟨l, hl, hor⟩
      rcases hor with h | h
      · exact Bool.or_eq_true_iff.mpr (Or.inl (henh.mpr ⟨l, hl, h⟩))
      · exact Bool.or_eq_true_iff.mpr (Or.inr (hfea.mpr ⟨l, hl, h⟩))
    unfold determine_bump
    simp [h1, h2]
  · intro hm he hb
    have h1 : pyIn "major" (labels.map pyLower) = false := by
      rw [← Bool.not_eq_true]; exact fun hc => hm (hmaj.mp hc)
    have h2 : (pyIn "enhancement" (labels.map pyLower)
        || pyIn "feature" (labels.map pyLower)) = false := by
      rw [← Bool.not_eq_true]
      intro hc
      rcases Bool.or_eq_true_iff.mp hc with hc | hc
      · rcases henh.mp hc with ⟨l, hl, h⟩; exact he ⟨l, hl, Or.inl h⟩
      · rcases hfea.mp hc with ⟨l, hl, h⟩; exact he ⟨l, hl, Or.inr h⟩
    have h3 : (pyIn "bug" (labels.map pyLower)
        || pyIn "fix" (labels.map pyLower)) = true := by
      rcases hb with ⟨l, hl, hor⟩
      rcases hor with h | h
      · exact Bool.or_eq_true_iff.mpr (Or.inl (hbug.mpr ⟨l, hl, h⟩))
      · exact Bool.or_eq_true_iff.mpr (Or.inr (hfix.mpr ⟨l, hl, h⟩))
    unfold determine_bump
    simp [h1, h2, h3]
  · intro hm he hb
    have h1 : pyIn "major" (labels.map pyLower) = false := by
      rw [← Bool.not_eq_true]; exact fun hc => hm (hmaj.mp hc)
    have h2 : (pyIn "enhancement" (labels.map pyLower)
        || pyIn "feature" (labels.map pyLower)) = false := by
      rw [← Bool.not_eq_true]
      intro hc
      rcases Bool.or_eq_true_iff.mp hc with hc | hc
      · rcases henh.mp hc with ⟨l, hl, h⟩; exact he ⟨l, hl, Or.inl h⟩
      · rcases hfea.mp hc with ⟨l, hl, h⟩; exact he ⟨l, hl, Or.inr h⟩
    have h3 : (pyIn "bug" (labels.map pyLower)
        || pyIn "fix" (labels.map pyLower)) = false := by
      rw [← Bool.not_eq_true]
      intro hc
      rcases Bool.or_eq_true_iff.mp hc with hc | hc
      · rcases hbug.mp hc with ⟨l, hl, h⟩; exact hb ⟨l, hl, Or.inl h⟩
      · rcases hfix.mp hc with ⟨l, hl, h⟩; exact hb ⟨l, hl, Or.inr h⟩
    unfold determine_bump
    simp [h1, h2, h3]

/-- Witness for C2: the label set `["Major", "bug"]` contains `major`
case-insensitively, so the bump resolves to `major`. -/
theorem C2_witness : determine_bump ["Major", "bug"] = "major" :=
  (C2_determine_bump_rule ["Major", "bug"]).2.1 ⟨"Major", by simp, by decide⟩

/-! ## C3 -/

/-- C3. Version bumping is monotonic and zeroes lower-order fields: for
every string parsing as version `v`, the patch bump is strictly greater
than `v`; the minor bump increments the minor field, resets patch to 0 and
is strictly greater; the major bump increments major and resets both lower
fields; and `1.2.3` bumped by minor is `1.3.0` (not `1.3.3`). -/
theorem C3_bump_monotonic (s : String) (v : Version)
    (h : semverParse s = some v) :
    (∃ v2, bump_version s "patch" = some v2 ∧ v.lt v2) ∧
    (∃ v2, bump_version s "minor" = some v2 ∧
      v2.minor = v.minor + 1 ∧ v2.patch = 0 ∧ v.lt v2) ∧
    (∃ v2, bump_version s "major" = some v2 ∧
      v2.major = v.major + 1 ∧ v2.minor = 0 ∧ v2.patch = 0 ∧ v.lt v2) ∧
    bump_version "1.2.3" "minor" = some ⟨1, 3, 0⟩ := by
  refine ⟨⟨v.bump_patch, ?_, ?_⟩, ⟨v.bump_minor, ?_, rfl, rfl, ?_⟩,
    ⟨v.bump_major, ?_, rfl, rfl, rfl, ?_⟩, by decide⟩
  · simp [bump_version, h]
  · simp [Version.lt, Version.bump_patch]
  · simp [bump_version, h]
  · simp [Version.lt, Version.bump_minor]
  · simp [bump_version, h]
  · simp [Version.lt, Version.bump_major]

/-- Witness for C3 at the concrete version `1.2.3`. -/
theorem C3_witness :
    ∃ v2, bump_version "1.2.3" "patch" = some v2 ∧ Version.lt ⟨1, 2, 3⟩ v2 :=
  (C3_bump_monotonic "1.2.3" ⟨1, 2, 3⟩ (by decide)).1

/-! ## C4 -/

/-- C4. `bump_version` error contract: an unrecognized bump kind returns
the parsed base version unchanged, and an unparsable base string raises an
uncaught parse error; in particular a run whose latest `v*` tag strips to
the invalid string `bogus` aborts with that parse error (non-zero exit). -/
theorem C4_bump_version_error_contract :
    (∀ (s : String) (v : Version) (b : String), semverParse s = some v →
      b ≠ "major" → b ≠ "minor" → b ≠ "patch" → bump_version s b = some v) ∧
    (∀ s b : String, semverParse s = none → bump_version s b = none) ∧
    semverParse "bogus" = none ∧
    runParseFailed (mainRun badTagWorld "" "main" none) "bogus" = true := by
  refine ⟨?_, ?_, by decide, by decide⟩
  · intro s v b hp h1 h2 h3
    simp [bump_version, hp, h1, h2, h3]
  · intro s b hp
    simp [bump_version, hp]

/-- Witness for C4: the unrecognized bump kind `none` returns the parsed
base `1.2.3` unchanged. -/
theorem C4_witness : bump_version "1.2.3" "none" = some ⟨1, 2, 3⟩ :=
  C4_bump_version_error_contract.1 "1.2.3" ⟨1, 2, 3⟩ "none" (by decide)
    (by decide) (by decide) (by decide)

/-! ## C5 -/

/-- Counterexample to C5 as stated: the claim says a failure of commit-log
collection propagates as a fatal uncaught error, but `get_commits_since_tag`
catches `CalledProcessError` and returns the empty list — in a world where
the merge-log command for the existing tag `dev-1.4.2` fails, the function
returns `[]` and the run still finishes successfully, creating `dev-1.4.3`. -/
theorem C5_counterexample :
    logFailWorld (logCmd "dev-1.4.2") = Except.error () ∧
    get_commits_since_tag logFailWorld "dev-1.4.2" = [] ∧
    runOk (mainRun logFailWorld "bug" "develop" none) = true ∧
    runTag (mainRun logFailWorld "bug" "develop" none) = some "dev-1.4.3" := by
  refine ⟨rfl, by decide, by decide, by decide⟩

/-- C5 (amended). Tag-lookup failures and commit-log-collection failures
are the caught and recovered error classes: a failed tag listing is treated
as "no prior tag" (`none`) and a failed merge-log listing as an empty
commit list, and neither is fatal (such runs still complete and tag).
Every other external command failure — tag creation, tag push, the
changelog `git add`/commit/push steps, release creation — propagates as a
fatal uncaught error; the changelog commit command carries a shell-level
`|| echo` fallback, so a nothing-to-commit outcome reaches the script as a
non-error. -/
theorem C5_error_class_amended :
    (∀ (w : World) (pattern : String), w (tagListCmd pattern) = Except.error () →
      get_latest_tag w pattern = none) ∧
    (∀ (w : World) (tag : String), w (logCmd tag) = Except.error () →
      get_commits_since_tag w tag = []) ∧
    runTag (mainRun (failOn (tagListCmd "v*")) "" "main" none) = some "v0.1.1" ∧
    runTag (mainRun logFailWorld "bug" "develop" none) = some "dev-1.4.3" ∧
    runFailedOn (mainRun (failOn (tagCreateCmd "v0.1.1")) "" "main" none)
      (tagCreateCmd "v0.1.1") = true ∧
    runFailedOn (mainRun (failOn (tagPushCmd "v0.1.1")) "" "main" none)
      (tagPushCmd "v0.1.1") = true ∧
    runFailedOn (mainRun (failOn gitAddCmd) "" "main" none) gitAddCmd = true ∧
    runFailedOn (mainRun (failOn commitCmd) "" "main" none) commitCmd = true ∧
    runFailedOn (mainRun (failOn pushHeadCmd) "" "main" none) pushHeadCmd = true ∧
    runFailedOn (mainRun (failOn (releaseCreateCmd "v0.1.1" false)) "publish" "main" none)
      (releaseCreateCmd "v0.1.1" false) = true ∧
    runOk (mainRun nothingToCommitWorld "" "main" none) = true := by
  refine ⟨?_, ?_, by decide, by decide, by decide, by decide, by decide,
    by decide, by decide, by decide, by decide⟩
  · intro w pattern h
    simp [get_latest_tag, runE, h]
  · intro w tag h
    simp [get_commits_since_tag, runE, h]

/-- Witness for C5: in the all-failing world the tag lookup recovers to
`none`. -/
theorem C5_witness : get_latest_tag failWorld "v*" = none :=
  C5_error_class_amended.1 failWorld "v*" rfl

/-! ## C9 -/

/-- C9. Unsupported-branch no-op: for every branch other than `develop`
and `main`, the run prints the warning and exits with status 0, issuing no
shell command, creating no tag, and writing no file. -/
theorem C9_unsupported_branch_noop (w : World) (pr_labels branch : String)
    (chlog : Option String) (h1 : branch ≠ "develop") (h2 : branch ≠ "main") :
    mainRun w pr_labels branch chlog =
      Except.ok ⟨[], none, none, none, none, true⟩ := by
  simp [mainRun, h1, h2]

/-- Witness for C9 at the concrete unsupported branch `feature/x`. -/
theorem C9_witness :
    mainRun okWorld "enhancement" "feature/x" none =
      Except.ok ⟨[], none, none, none, none, true⟩ :=
  C9_unsupported_branch_noop okWorld "enhancement" "feature/x" none
    (by decide) (by decide)

/-! ## C6 -/

/-- Modelled from the claim's words, for comparison with the source: the
claimed classification rule "first-match keyword rule evaluated in the
fixed priority order breaking > feature/enhancement > bug/fix > other". -/
def specClaimCategoryOf (msg : String) : String :=
  if pyContains (pyLower msg) "breaking" then "breaking"
  else if pyContains (pyLower msg) "feature" || pyContains (pyLower msg) "enhanc" then
    "feature/enhancement"
  else if pyContains (pyLower msg) "bug" || pyContains (pyLower msg) "fix" then
    "bug/fix"
  else "other"

/-- Counterexample to C6 as stated: the claim's priority order puts a
breaking category first, but this script has no breaking category at all —
its sections are only Enhancements, Bug Fixes and Other.  For the commit
message `breaking: fix typo` the claimed rule yields the (highest-priority)
breaking category, while the code files the line under `🐛 Bug Fixes`. -/
theorem C6_counterexample :
    specClaimCategoryOf "breaking: fix typo" = "breaking" ∧
    categorize_commits ["breaking: fix typo|abc"] =
      ⟨[], ["breaking: fix typo (#abc)"], []⟩ := by
  decide

/-- Total number of classified lines across the three sections. -/
def Sections.size (s : Sections) : Nat :=
  s.enhancements.length + s.bugFixes.length + s.other.length

theorem categorize_foldl_size :
    ∀ (commits : List String) (s0 : Sections),
      (commits.foldl categorizeStep s0).size = s0.size + commits.length := by
  intro commits
  induction commits with
  | nil => intro s0; simp
  | cons c cs ih =>
    intro s0
    have hstep : (categorizeStep s0 c).size = s0.size + 1 := by
      unfold categorizeStep Sections.size
      by_cases h1 : isEnhMsg (commitMsg c) <;>
        by_cases h2 : isBugMsg (commitMsg c) <;>
        simp [h1, h2] <;> omega
    simp only [List.foldl_cons, ih, hstep, List.length_cons]
    omega

/-- C6 (amended). Changelog classification is a total function assigning
every commit line exactly one category, by the first-match keyword rule in
the fixed priority order feature/enhancement > bug/fix > other (this
variant has no breaking category): a single commit lands in the
enhancements section whenever its message matches the feature/enhancement
keywords — even if it also matches bug/fix — otherwise in bug fixes when
it matches those keywords, otherwise in other; and over any commit list
the section sizes sum to the number of commits. -/
theorem C6_classification_amended :
    (∀ c : String,
      categorize_commits [c] =
        if isEnhMsg (commitMsg c) then ⟨[commitLine c], [], []⟩
        else if isBugMsg (commitMsg c) then ⟨[], [commitLine c], []⟩
        else ⟨[], [], [commitLine c]⟩) ∧
    (∀ commits : List String,
      (categorize_commits commits).size = commits.length) := by
  constructor
  · intro c
    by_cases h1 : isEnhMsg (commitMsg c) <;>
      by_cases h2 : isBugMsg (commitMsg c) <;>
      simp [categorize_commits, categorizeStep, h1, h2]
  · intro commits
    have := categorize_foldl_size commits ⟨[], [], []⟩
    simpa [categorize_commits, Sections.size] using this

/-! ## C7 -/

theorem splitOnChar_not_mem (sep : Char) :
    ∀ l : List Char, sep ∉ l → splitOnChar sep l = [l] := by
  intro l
  induction l with
  | nil => intro _; rfl
  | cons c rest ih =>
    intro h
    have hc : ¬ c = sep := fun he => h (he ▸ List.mem_cons_self c rest)
    have hr : sep ∉ rest := fun hm => h (List.mem_cons_of_mem c hm)
    simp [splitOnChar, hc, ih hr]

theorem splitOnChar_append (sep : Char) :
    ∀ a b : List Char, sep ∉ a →
      splitOnChar sep (a ++ sep :: b) = a :: splitOnChar sep b := by
  intro a
  induction a with
  | nil => intro b _; simp [splitOnChar]
  | cons c a2 ih =>
    intro b h
    have hc : ¬ c = sep := fun he => h (he ▸ List.mem_cons_self c a2)
    have ha : sep ∉ a2 := fun hm => h (List.mem_cons_of_mem c hm)
    simp [splitOnChar, hc, ih b ha]

/-- Splitting a pipe-joined record recovers its two fields. -/
theorem pySplit_pipe (msg hash : String) (hm : '|' ∉ msg.data)
    (hh : '|' ∉ hash.data) :
    pySplit (msg ++ "|" ++ hash) '|' = [msg, hash] := by
  have hpipe : ("|" : String).data = ['|'] := rfl
  have hdata : (msg ++ "|" ++ hash).data = msg.data ++ '|' :: hash.data := by
    rw [String.data_append, String.data_append, hpipe, List.append_assoc]
    rfl
  unfold pySplit
  rw [hdata, splitOnChar_append '|' msg.data hash.data hm,
    splitOnChar_not_mem '|' hash.data hh]
  rfl

/-- Counterexample to C7 as stated: the claim says every commit record is
rendered as the single line `"<message> (<id>)"`, but a PR-merge commit is
rewritten to `"<PR title> (#<PR number>)"`: the record
`Merge pull request #7 from repo/dev Improve docs|abc1234` renders as
`Improve docs (#7)`, which is neither the record's message nor its id. -/
theorem C7_counterexample :
    categorize_commits ["Merge pull request #7 from repo/dev Improve docs|abc1234"]
      = ⟨[], [], ["Improve docs (#7)"]⟩ ∧
    "Improve docs (#7)" ≠
      "Merge pull request #7 from repo/dev Improve docs (abc1234)" := by
  decide

/-- C7 (amended). Changelog builder output: a commit record whose stripped
message does not match the PR-merge pattern is rendered as the single line
`"<message> (#<id>)"`, and one that matches `Merge pull request #N from X T`
is rendered as `"<T> (#N)"`; the built block opens with the
`next_tag`/`Changes` header and contains one subsection per non-empty
category only, each introduced by its fixed emoji header, in the fixed
order Enhancements, Bug Fixes, Other, with empty categories omitted
entirely; and building twice from the same commit sequence yields
byte-identical text (the builder is a pure function of the commits). -/
theorem C7_changelog_build_amended :
    (∀ msg hash : String, '|' ∉ msg.data → '|' ∉ hash.data →
      commitMsg (msg ++ "|" ++ hash) = pyStrip msg ∧
      commitHash (msg ++ "|" ++ hash) = pyStrip hash ∧
      (matchPRMerge (pyStrip msg) = none →
        commitLine (msg ++ "|" ++ hash) =
          pyStrip msg ++ " (#" ++ pyStrip hash ++ ")") ∧
      (∀ num title : String, matchPRMerge (pyStrip msg) = some (num, title) →
        commitLine (msg ++ "|" ++ hash) = title ++ " (#" ++ num ++ ")")) ∧
    (∀ (ct : Option String) (t : String),
      build_changelog ⟨[], [], []⟩ ct t = t ++ "\nChanges\n") ∧
    (∀ (ne bf ot : List String) (ct : Option String) (t : String),
      ne ≠ [] → bf ≠ [] → ot ≠ [] →
      build_changelog ⟨ne, bf, ot⟩ ct t =
        joinWith "\n" ([t ++ "\nChanges\n", "🚀 Enhancements"] ++ ne
          ++ ["🐛 Bug Fixes"] ++ bf ++ ["🧰 Other"] ++ ot)) ∧
    (∀ (ne ot : List String) (ct : Option String) (t : String),
      ne ≠ [] → ot ≠ [] →
      build_changelog ⟨ne, [], ot⟩ ct t =
        joinWith "\n" ([t ++ "\nChanges\n", "🚀 Enhancements"] ++ ne
          ++ ["🧰 Other"] ++ ot)) ∧
    (∀ (commits : List String) (ct : Option String) (t : String),
      build_changelog (categorize_commits commits) ct t
        = build_changelog (categorize_commits commits) ct t) := by
  refine ⟨?_, ?_, ?_, ?_, fun _ _ _ => rfl⟩
  · intro msg hash hm hh
    have hsplit := pySplit_pipe msg hash hm hh
    have h1 : commitMsg (msg ++ "|" ++ hash) = pyStrip msg := by
      simp [commitMsg, hsplit]
    have h2 : commitHash (msg ++ "|" ++ hash) = pyStrip hash := by
      simp [commitHash, hsplit]
    refine ⟨h1, h2, ?_, ?_⟩
    · intro hre
      simp [commitLine, h1, h2, hre]
    · intro num title hre
      simp [commitLine, h1, h2, hre]
  · intro ct t
    simp [build_changelog, joinWith]
  · intro ne bf ot ct t hne hbf hot
    simp only [build_changelog, hne, hbf, hot, if_neg]
    congr 1
    simp [List.append_assoc]
  · intro ne ot ct t hne hot
    simp only [build_changelog, hne, hot, if_neg]
    congr 1
    simp [List.append_assoc]

/-- Witness for C7: the ordinary record `Fix crash|abc` renders as
`Fix crash (#abc)`. -/
theorem C7_witness :
    commitLine ("Fix crash" ++ "|" ++ "abc") =
      pyStrip "Fix crash" ++ " (#" ++ pyStrip "abc" ++ ")" :=
  (C7_changelog_build_amended.1 "Fix crash" "abc" (by decide)
    (by decide)).2.2.1 (by decide)

/-! ## C8 -/

/-- Counterexample to C8 as stated: the persister does not write the literal
concatenation `new_block + existing_content`; it writes
`new_block + "\n\n" + existing_content` — with block `B` over existing
content `A` the file becomes `B\n\nA`, not `BA`. -/
theorem C8_counterexample :
    update_changelog_content "B" (some "A") = "B\n\nA" ∧
    ("B\n\nA" : String) ≠ "BA" := by
  decide

/-- C8 (amended). Changelog persistence is a non-destructive prepend: the
persister writes `new_block + "\n\n" + existing_content` (existing content
read if the file exists, else empty) back to the same path, so running it
twice with blocks A then B leaves the file as `B + "\n\n" + A + "\n\n" +
original`, and the original content is always preserved as a suffix, never
overwritten or truncated. -/
theorem C8_prepend_amended (A B orig : String) :
    update_changelog_content A (some orig) = A ++ "\n\n" ++ orig ∧
    update_changelog_content A none = A ++ "\n\n" ∧
    update_changelog_content B (some (update_changelog_content A (some orig)))
      = B ++ "\n\n" ++ A ++ "\n\n" ++ orig ∧
    (∃ p : String,
      update_changelog_content B (some (update_changelog_content A (some orig)))
        = p ++ orig) := by
  refine ⟨rfl, String.append_empty _, ?_, ?_⟩
  · unfold update_changelog_content
    simp only [Option.getD_some, String.append_assoc]
  · exact ⟨B ++ "\n\n" ++ A ++ "\n\n", by
      unfold update_changelog_content
      simp only [Option.getD_some, String.append_assoc]⟩

/-! ## C10 -/

theorem digitChar_isDigit (d : Nat) : (digitChar d).isDigit = true := by
  unfold digitChar
  split <;> decide

theorem natToDigitsAux_digits :
    ∀ (fuel n : Nat), ∀ c ∈ natToDigitsAux fuel n, c.isDigit = true := by
  intro fuel
  induction fuel with
  | zero => intro n c h; simp [natToDigitsAux] at h
  | succ f ih =>
    intro n c h
    unfold natToDigitsAux at h
    by_cases hn : n = 0
    · simp [hn] at h
    · rw [if_neg hn] at h
      rcases List.mem_append.mp h with h | h
      · exact ih _ c h
      · rcases List.mem_singleton.mp h with rfl
        exact digitChar_isDigit _

theorem natToStr_digits (n : Nat) : ∀ c ∈ (natToStr n).data, c.isDigit = true := by
  intro c h
  unfold natToStr at h
  by_cases hn : n = 0
  · rw [if_pos hn] at h
    rcases List.mem_singleton.mp h with rfl
    rfl
  · rw [if_neg hn] at h
    exact natToDigitsAux_digits _ _ c h

/-- Every character of a rendered version string is a digit or a dot. -/
theorem toStr_chars (v : Version) :
    ∀ c ∈ (Version.toStr v).data, c.isDigit = true ∨ c = '.' := by
  intro c h
  unfold Version.toStr at h
  have hdot : ("." : String).data = ['.'] := rfl
  rw [String.data_append, String.data_append, String.data_append,
    String.data_append, hdot] at h
  simp only [List.mem_append, List.mem_singleton] at h
  rcases h with ((((h | h) | h) | h) | h)
  · exact Or.inl (natToStr_digits _ c h)
  · exact Or.inr h
  · exact Or.inl (natToStr_digits _ c h)
  · exact Or.inr h
  · exact Or.inl (natToStr_digits _ c h)

theorem toStr_no_v (v : Version) : 'v' ∉ (Version.toStr v).data := by
  intro h
  rcases toStr_chars v 'v' h with hd | hd
  · exact absurd hd (by decide)
  · exact absurd hd (by decide)

theorem toStr_no_d (v : Version) : 'd' ∉ (Version.toStr v).data := by
  intro h
  rcases toStr_chars v 'd' h with hd | hd
  · exact absurd hd (by decide)
  · exact absurd hd (by decide)

/-- A list is a `isPrefixOf`-prefix of itself followed by anything. -/
theorem isPrefixOf_self_append :
    ∀ a b : List Char, a.isPrefixOf (a ++ b) = true := by
  intro a b
  induction a with
  | nil => simp [List.isPrefixOf]
  | cons c a2 ih => simp [List.isPrefixOf, ih]

/-- If the pattern's first character never occurs, `replace` is the
identity — for any amount of fuel. -/
theorem pyReplaceFuel_no_head (p : Char) (ps rep : List Char) :
    ∀ (fuel : Nat) (l : List Char), p ∉ l →
      pyReplaceFuel (p :: ps) rep fuel l = l := by
  intro fuel
  induction fuel with
  | zero => intro l _; cases l <;> rfl
  | succ f ih =>
    intro l h
    cases l with
    | nil => rfl
    | cons c rest =>
      have hc : ¬ p = c := fun he => h (he ▸ List.mem_cons_self c rest)
      have hr : p ∉ rest := fun hm => h (List.mem_cons_of_mem c hm)
      have hpre : (p :: ps).isPrefixOf (c :: rest) = false := by
        simp [List.isPrefixOf, hc]
      unfold pyReplaceFuel
      rw [hpre]
      simp [ih rest hr]

/-- Stripping a leading occurrence of the pattern (replacement `""`) when
the pattern's first character does not occur in the remainder. -/
theorem pyReplaceFuel_strip (p : Char) (ps : List Char) (fuel : Nat)
    (l : List Char) (h : p ∉ l) :
    pyReplaceFuel (p :: ps) [] (fuel + 1) (p :: (ps ++ l)) = l := by
  have hpre : (p :: ps).isPrefixOf (p :: (ps ++ l)) = true :=
    isPrefixOf_self_append (p :: ps) l
  unfold pyReplaceFuel
  rw [hpre]
  simp only [if_true, List.nil_append, List.length_cons, Nat.add_sub_cancel,
    List.drop_left]
  exact pyReplaceFuel_no_head p ps [] fuel l h

/-- Stripping the `v` prefix from a generated stable tag. -/
theorem pyReplace_strip_v (v : Version) :
    pyReplace ("v" ++ v.toStr) "v" "" = v.toStr := by
  have hdata : ("v" ++ v.toStr).data = 'v' :: v.toStr.data := by
    rw [String.data_append]; rfl
  show String.mk (pyReplaceFuel ['v'] []
      (("v" ++ v.toStr).data.length + 1) ("v" ++ v.toStr).data) = v.toStr
  rw [hdata]
  have hlen : ('v' :: v.toStr.data).length + 1 = (v.toStr.data.length + 1) + 1 := by
    simp
  rw [hlen]
  have := pyReplaceFuel_strip 'v' [] (v.toStr.data.length + 1) v.toStr.data
    (toStr_no_v v)
  simp only [List.nil_append] at this
  rw [this]

/-- Stripping the `dev-` prefix from a generated pre-release tag. -/
theorem pyReplace_strip_dev (v : Version) :
    pyReplace ("dev-" ++ v.toStr) "dev-" "" = v.toStr := by
  have hdata : ("dev-" ++ v.toStr).data
      = 'd' :: (['e', 'v', '-'] ++ v.toStr.data) := by
    rw [String.data_append]; rfl
  show String.mk (pyReplaceFuel ['d', 'e', 'v', '-'] []
      (("dev-" ++ v.toStr).data.length + 1) ("dev-" ++ v.toStr).data) = v.toStr
  rw [hdata]
  have hlen : ('d' :: (['e', 'v', '-'] ++ v.toStr.data)).length + 1
      = (v.toStr.data.length + 4) + 1 := by
    simp
  rw [hlen]
  have := pyReplaceFuel_strip 'd' ['e', 'v', '-'] (v.toStr.data.length + 4)
    v.toStr.data (toStr_no_d v)
  rw [this]

/-- C10. Tag-prefix round-trip: for every version the program can generate
a tag from, stripping the prefix the way the program does (Python
`replace`) and re-adding the same prefix reproduces the tag exactly, for
both the `v` prefix used on main and the `dev-` prefix used on develop. -/
theorem C10_tag_prefix_roundtrip (v : Version) :
    (pyReplace ("v" ++ v.toStr) "v" "" = v.toStr ∧
      "v" ++ pyReplace ("v" ++ v.toStr) "v" "" = "v" ++ v.toStr) ∧
    (pyReplace ("dev-" ++ v.toStr) "dev-" "" = v.toStr ∧
      "dev-" ++ pyReplace ("dev-" ++ v.toStr) "dev-" "" = "dev-" ++ v.toStr) := by
  refine ⟨⟨pyReplace_strip_v v, ?_⟩, ⟨pyReplace_strip_dev v, ?_⟩⟩
  · rw [pyReplace_strip_v v]
  · rw [pyReplace_strip_dev v]

end AutoRelease
